import Mathlib

/-!
Verification development for the `kitchen-nightmares` ECS game core.

The input pipeline is embedded directly from `src/systems/InputSystem.ts`
and the animation loop from `src/core/Game.ts`.  The health / combat
resolution pipeline (DamageSystem / HealthSystem) is not part of the
provided sources beyond the `HealthComponent` record, so those operations
are modelled from the specification's damage-application algorithm.

Key snapshots are lists of key-code strings (the `Set<string>` of held
keys in `InputSystem`), time deltas are rationals.
-/

namespace KitchenNightmares

/-- Key-code string constants used by `InputSystem.update`. -/
def keyEscape : String := "Escape"

def keySpace : String := "Space"

def keyShiftLeft : String := "ShiftLeft"

def keyShiftRight : String := "ShiftRight"

def keyW : String := "KeyW"

def keyS : String := "KeyS"

def keyA : String := "KeyA"

def keyD : String := "KeyD"

def keyArrowUp : String := "ArrowUp"

def keyArrowDown : String := "ArrowDown"

def keyArrowLeft : String := "ArrowLeft"

def keyArrowRight : String := "ArrowRight"

/-- The held-key snapshot: the `keys : Set<string>` of `InputSystem`,
reduced once per frame from raw keydown/keyup events. -/
def Keys := List String

instance : Membership String Keys := inferInstanceAs (Membership String (List String))

instance : DecidableEq Keys := inferInstanceAs (DecidableEq (List String))

instance : Repr Keys := inferInstanceAs (Repr (List String))

/-- Whether a key code is in the held-key snapshot (`this.keys.has(code)`). -/
def Keys.has (ks : Keys) (code : String) : Bool := ks.contains code

/-- Modelled from the spec: the distinct game-pause state toggled through
`GameController`'s `currentGameState` / `pauseGame` / `resumeGame`
(that module is not among the provided sources). -/
inductive GameState where
  | playing
  | paused
deriving DecidableEq, Repr

/-- Modelled from the spec: `currentGameState()` returns the game-pause state. -/
def currentGameState (gs : GameState) : GameState := gs

/-- Modelled from the spec: `pauseGame()` enters the paused state. -/
def pauseGame (_gs : GameState) : GameState := GameState.paused

/-- Modelled from the spec: `resumeGame()` leaves the paused state. -/
def resumeGame (_gs : GameState) : GameState := GameState.playing

/-- The `InputComponent` record: boolean intents plus the
pressed-last-frame shadow flags (`src/components/Input`, as used by
`InputSystem.update`). -/
structure InputComponent where
  up : Bool
  down : Bool
  left : Bool
  right : Bool
  attack : Bool
  dash : Bool
  attackPressedLastFrame : Bool
  dashPressedLastFrame : Bool
  pausePressedLastFrame : Bool
deriving DecidableEq, Repr

/-- The body of `InputSystem.update` for one entity holding an Input
component (`src/systems/InputSystem.ts`, lines 16-49): the Escape
pause/resume toggle guarded by `pausePressedLastFrame`, the edge-triggered
`dash` and `attack` intents guarded by their own shadow flags, and the
level-triggered directional intents.  Returns the game state after the
possible toggle together with the rewritten component. -/
def updateInputEntity (keys : Keys) (gs : GameState) (input : InputComponent) :
    GameState × InputComponent :=
  let escapeDown := keys.has keyEscape
  let gs' :=
    if escapeDown && !input.pausePressedLastFrame then
      if currentGameState gs = GameState.playing then pauseGame gs else resumeGame gs
    else gs
  let dashKeyDown := keys.has keyShiftLeft || keys.has keyShiftRight
  let attackKeyDown := keys.has keySpace
  (gs',
    { up := keys.has keyW || keys.has keyArrowUp
      down := keys.has keyS || keys.has keyArrowDown
      left := keys.has keyA || keys.has keyArrowLeft
      right := keys.has keyD || keys.has keyArrowRight
      attack := attackKeyDown && !input.attackPressedLastFrame
      dash := dashKeyDown && !input.dashPressedLastFrame
      attackPressedLastFrame := attackKeyDown
      dashPressedLastFrame := dashKeyDown
      pausePressedLastFrame := escapeDown })

/-- `InputSystem.update` over the world's entities: the per-entity body is
run once for every entity holding an Input component, in iteration order,
threading the game-pause state through the Escape toggles. -/
def inputSystemUpdate (keys : Keys) (gs : GameState) :
    List InputComponent → GameState × List InputComponent
  | [] => (gs, [])
  | input :: rest =>
    let p := updateInputEntity keys gs input
    let q := inputSystemUpdate keys p.1 rest
    (q.1, p.2 :: q.2)

/-- Running `InputSystem.update` over a sequence of per-frame held-key
snapshots for a single Input-holding entity, collecting the state after
each frame. -/
def runInput : List Keys → GameState → InputComponent →
    List (GameState × InputComponent)
  | [], _, _ => []
  | ks :: rest, gs, input =>
    let p := updateInputEntity ks gs input
    p :: runInput rest p.1 p.2

/-- A default frame used with `List.getD` when indexing `runInput` output. -/
def defaultFrame : GameState × InputComponent :=
  (GameState.playing,
    { up := false, down := false, left := false, right := false
      attack := false, dash := false
      attackPressedLastFrame := false, dashPressedLastFrame := false
      pausePressedLastFrame := false })

/-- Modelled from the spec: the observable world state for `World.update`.
`World.update(deltaTime)` invokes each registered system's `update` in
registration order (spec, section 4.2); `InputSystem` is registered first
(`Game.ts`, line 134) and is the only registered system whose code is
among the provided sources, so the model carries the game-pause state,
the InputSystem's held-key snapshot and the Input components, and the
update runs the InputSystem body embedded above.  The source
`InputSystem.update(world)` receives no delta and ignores elapsed time
entirely. -/
structure WorldState where
  gameState : GameState
  keys : Keys
  inputs : List InputComponent
deriving DecidableEq, Repr

/-- Modelled from the spec: `World.update(deltaTime)` running the
registered-first `InputSystem` (whose body is embedded from the source
and does not depend on `deltaTime`). -/
def worldUpdate (_deltaTime : ℚ) (w : WorldState) : WorldState :=
  let q := inputSystemUpdate w.keys w.gameState w.inputs
  { w with gameState := q.1, inputs := q.2 }

/-- One animation frame of `Game.ts`'s `animate` (lines 167-178): given the
effective delta produced by `hitPauseService.update`, the world is updated
only when `delta > 0`; otherwise `world.update` is not invoked at all.
Returns the world after the frame and whether `world.update` was invoked. -/
def animateFrame (delta : ℚ) (w : WorldState) : WorldState × Bool :=
  if 0 < delta then (worldUpdate delta w, true) else (w, false)

/-- Modelled from the spec: the effective per-frame delta.  The game-pause
state, when active, causes the per-frame delta to be zero
(`hitPauseService` and the pause plumbing are not among the provided
sources); when not paused the raw clock delta passes through. -/
def effectiveDelta (paused : Bool) (rawDelta : ℚ) : ℚ :=
  if paused then 0 else rawDelta

/-- The `HealthComponent` record (`src/unnamed/part_000`), extended with
the observable effects the spec attaches to it: `onDeathCount` counts
invocations of the `onDeath` callback and `destroyScheduled` records that
the entity was scheduled for end-of-frame destruction.  `recentlyHitBy`
is the set of attackId strings already applied. -/
structure HealthEntity where
  current : ℚ
  max : ℚ
  pendingDamage : ℚ
  recentlyHitBy : List String
  invulnerableCooldown : ℚ
  invulnerableRemaining : ℚ
  onDeathCount : Nat
  destroyScheduled : Bool
deriving DecidableEq, Repr

/-- Modelled from the spec: the damage-application algorithm, steps 1-4
(spec, section 4.3) — run once per attack-hit event.  Dead defenders and
invulnerable defenders are ignored, an attackId already in
`recentlyHitBy` is ignored, otherwise the attackId is recorded and the
damage accumulated into `pendingDamage`. -/
def applyHit (attackId : String) (damage : ℚ) (e : HealthEntity) : HealthEntity :=
  if e.current ≤ 0 then e
  else if 0 < e.invulnerableRemaining then e
  else if attackId ∈ e.recentlyHitBy then e
  else
    { e with
      recentlyHitBy := attackId :: e.recentlyHitBy
      pendingDamage := e.pendingDamage + damage }

/-- Modelled from the spec: the clamp of step 5 of the damage-application
algorithm — `current -= pendingDamage`, clamped to `[0, max]`. -/
def clampCurrent (e : HealthEntity) : ℚ :=
  let damaged := e.current - e.pendingDamage
  if damaged < 0 then 0 else if e.max < damaged then e.max else damaged

/-- Modelled from the spec: health resolution, steps 5-6 (spec, section
4.3) — `current` becomes its clamped value, `pendingDamage` is reset,
`invulnerableRemaining = invulnerableCooldown` when damage was applied
and the entity survived, and on the first transition of `current` to
`≤ 0` the `onDeath` callback fires and destruction is scheduled. -/
def resolveHealth (e : HealthEntity) : HealthEntity :=
  let newCurrent := clampCurrent e
  let applied : Bool := decide (0 < e.pendingDamage)
  let survived : Bool := decide (0 < newCurrent)
  let firstDeath : Bool := decide (0 < e.current) && decide (newCurrent ≤ 0)
  { e with
    current := newCurrent
    pendingDamage := 0
    invulnerableRemaining :=
      if applied && survived then e.invulnerableCooldown else e.invulnerableRemaining
    onDeathCount := if firstDeath then e.onDeathCount + 1 else e.onDeathCount
    destroyScheduled := e.destroyScheduled || firstDeath }

/-- Modelled from the spec: the invulnerability countdown is decremented
each frame by elapsed time. -/
def tickInvuln (dt : ℚ) (e : HealthEntity) : HealthEntity :=
  { e with invulnerableRemaining := e.invulnerableRemaining - dt }

/-- Events observed by one entity's Health component during the combat
pipeline: an attack-hit event, a health resolution, and the per-frame
invulnerability countdown. -/
inductive HEvent where
  | hit (attackId : String) (damage : ℚ)
  | resolve
  | tick (dt : ℚ)

/-- One pipeline event acting on a Health component. -/
def stepH : HEvent → HealthEntity → HealthEntity
  | HEvent.hit a d, e => applyHit a d e
  | HEvent.resolve, e => resolveHealth e
  | HEvent.tick dt, e => tickInvuln dt e

/-- A sequence of pipeline events acting on a Health component. -/
def runH (evs : List HEvent) (e : HealthEntity) : HealthEntity :=
  evs.foldl (fun s ev => stepH ev s) e

/-- Whether an attack-hit event with this attackId would pass all three
guards of the damage-application algorithm and actually apply damage. -/
def hitApplies (a : String) (e : HealthEntity) : Bool :=
  !(e.current ≤ 0) && !(0 < e.invulnerableRemaining) && !(a ∈ e.recentlyHitBy)

/-- How many hit events carrying attackId `a` actually apply damage along
a run of pipeline events. -/
def countApplies (a : String) : List HEvent → HealthEntity → Nat
  | [], _ => 0
  | HEvent.hit b d :: evs, e =>
    (if b = a ∧ hitApplies b e then 1 else 0) +
      countApplies a evs (stepH (HEvent.hit b d) e)
  | ev :: evs, e => countApplies a evs (stepH ev e)

/-- The end-of-frame flush of the Entity Store (spec, section 4.2):
entities marked for destruction during the frame are removed in a single
pass at frame end. -/
def flushStore (alive : List Nat) (pending : List Nat) : List Nat :=
  alive.filter (fun i => !(i ∈ pending))

/-- The Escape branch of `InputSystem.update` (lines 22-28): pause when
playing, resume otherwise. -/
def toggleGS (gs : GameState) : GameState :=
  if currentGameState gs = GameState.playing then pauseGame gs else resumeGame gs

/-- An Input component with every intent and shadow flag cleared. -/
def inp0 : InputComponent :=
  { up := false, down := false, left := false, right := false
    attack := false, dash := false
    attackPressedLastFrame := false, dashPressedLastFrame := false
    pausePressedLastFrame := false }

/-- Scenario D's held-key snapshots: Space pressed, held, held, released. -/
def scenarioD : List Keys := [[keySpace], [keySpace], [keySpace], []]

/-- A one-entity world in which Space is held and the entity's
`attackPressedLastFrame` shadow flag is still false. -/
def wSpace : WorldState :=
  { gameState := GameState.playing, keys := [keySpace], inputs := [inp0] }

/-! ## Theorems -/

/-- C8: for both `attack` and `dash` independently, the pressed-last-frame
shadow field is updated on every `InputSystem.update` to equal whether the
corresponding key is currently held, regardless of whether the
edge-triggered intent fired that frame. -/
theorem shadow_flags_track_held_keys (keys : Keys) (gs : GameState)
    (input : InputComponent) :
    (updateInputEntity keys gs input).2.attackPressedLastFrame = keys.has keySpace ∧
    (updateInputEntity keys gs input).2.dashPressedLastFrame
      = (keys.has keyShiftLeft || keys.has keyShiftRight) :=
  ⟨rfl, rfl⟩

/-- C9: the directional intents `up`, `down`, `left`, `right` are
level-triggered: after every `InputSystem.update`, each equals whether any
of its bound keys (W/S/A/D or the arrow keys) is currently in the held-key
set, with no shadow-flag guard. -/
theorem directional_intents_level_triggered (keys : Keys) (gs : GameState)
    (input : InputComponent) :
    (updateInputEntity keys gs input).2.up = (keys.has keyW || keys.has keyArrowUp) ∧
    (updateInputEntity keys gs input).2.down = (keys.has keyS || keys.has keyArrowDown) ∧
    (updateInputEntity keys gs input).2.left = (keys.has keyA || keys.has keyArrowLeft) ∧
    (updateInputEntity keys gs input).2.right = (keys.has keyD || keys.has keyArrowRight) :=
  ⟨rfl, rfl, rfl, rfl⟩

/-- C1: over any sequence of per-frame held-key snapshots, after each
`InputSystem.update` the Input component's `attack` and `dash` booleans
are true exactly on the frames where the corresponding key transitions
from released to pressed: at frame `i`, each equals (key held at `i`) AND
NOT (key held at `i - 1`, reading the initial shadow flag at frame 0), so
they are true on exactly one consecutive frame per physical press, false
while the key stays held, and false on release. -/
theorem attack_dash_edge_triggered (snaps : List Keys) (gs : GameState)
    (input : InputComponent) (i : Nat) (hi : i < snaps.length) :
    ((runInput snaps gs input).getD i defaultFrame).2.attack
        = ((snaps.getD i []).has keySpace &&
            !(if i = 0 then input.attackPressedLastFrame
              else (snaps.getD (i - 1) []).has keySpace)) ∧
    ((runInput snaps gs input).getD i defaultFrame).2.dash
        = (((snaps.getD i []).has keyShiftLeft || (snaps.getD i []).has keyShiftRight) &&
            !(if i = 0 then input.dashPressedLastFrame
              else ((snaps.getD (i - 1) []).has keyShiftLeft ||
                     (snaps.getD (i - 1) []).has keyShiftRight))) := by
  induction snaps generalizing gs input i with
  | nil => exact absurd hi (by simp)
  | cons ks rest ih =>
    cases i with
    | zero => exact ⟨rfl, rfl⟩
    | succ j =>
      have hj : j < rest.length := Nat.lt_of_succ_lt_succ (by simpa using hi)
      have h2 := ih (updateInputEntity ks gs input).1 (updateInputEntity ks gs input).2 j hj
      cases j with
      | zero =>
        simpa [runInput, List.getD_cons_succ, List.getD_cons_zero,
          updateInputEntity] using h2
      | succ k =>
        simpa [runInput, List.getD_cons_succ] using h2

/-- Witness for C1: scenario D (Space pressed, held, held, released) — the
`attack` outputs are `true, false, false, false` and the frame-1 output
agrees with the edge formula. -/
theorem attack_dash_edge_triggered_witness :
    ((runInput scenarioD GameState.playing inp0).getD 1 defaultFrame).2.attack = false ∧
    (runInput scenarioD GameState.playing inp0).map (fun p => p.2.attack)
      = [true, false, false, false] := by
  have h := attack_dash_edge_triggered scenarioD GameState.playing inp0 1 (by decide)
  exact ⟨by rw [h.1]; decide, by decide⟩

/-- C10: `InputSystem.update` evaluates the Escape pause/resume toggle
once per entity holding an Input component, each evaluation guarded only
by that entity's own `pausePressedLastFrame` shadow flag: with Escape held
and every shadow flag clear, the game state after the update is the pause
toggle iterated once per Input-holding entity — exactly once for one
entity, `n` times for `n` entities within the same update. -/
theorem escape_toggle_once_per_entity (keys : Keys) (gs : GameState)
    (inputs : List InputComponent)
    (hesc : keys.has keyEscape = true)
    (hshadow : ∀ inp ∈ inputs, inp.pausePressedLastFrame = false) :
    (inputSystemUpdate keys gs inputs).1 = toggleGS^[inputs.length] gs := by
  induction inputs generalizing gs with
  | nil => rfl
  | cons inp rest ih =>
    have hstep : (updateInputEntity keys gs inp).1 = toggleGS gs := by
      simp [updateInputEntity, toggleGS, hesc, hshadow inp (List.mem_cons_self inp rest)]
    calc (inputSystemUpdate keys gs (inp :: rest)).1
        = (inputSystemUpdate keys (updateInputEntity keys gs inp).1 rest).1 := rfl
      _ = toggleGS^[rest.length] (toggleGS gs) := by
          rw [hstep]
          exact ih (toggleGS gs) (fun i hmem => hshadow i (List.mem_cons_of_mem inp hmem))
      _ = toggleGS^[(inp :: rest).length] gs := by
          rw [List.length_cons, Function.iterate_succ_apply]

/-- Witness for C10: with Escape held, one all-clear Input entity toggles
playing to paused; two such entities toggle twice, back to playing. -/
theorem escape_toggle_once_per_entity_witness :
    (inputSystemUpdate [keyEscape] GameState.playing [inp0]).1 = GameState.paused ∧
    (inputSystemUpdate [keyEscape] GameState.playing [inp0, inp0]).1
      = GameState.playing := by
  have h1 := escape_toggle_once_per_entity [keyEscape] GameState.playing [inp0]
    (by decide) (by decide)
  have h2 := escape_toggle_once_per_entity [keyEscape] GameState.playing [inp0, inp0]
    (by decide) (by decide)
  exact ⟨by rw [h1]; decide, by rw [h2]; decide⟩

/-- C2 counterexample: `World.update(0)` is not the identity on component
state.  In a world where Space is held and the single Input entity's
`attackPressedLastFrame` flag is still false, running the update with a
zero delta rewrites the Input component (`attack` becomes true), because
`InputSystem.update` receives no delta and rewrites key-derived state
unconditionally. -/
theorem world_update_zero_not_identity : worldUpdate 0 wSpace ≠ wSpace := by decide

/-- C2 (amended): the game never relies on `World.update(0)` being the
identity — `animate` only invokes `world.update` when `delta > 0`, so a
zero-delta animation frame leaves the whole world state unchanged. -/
theorem zero_delta_frame_is_identity (w : WorldState) :
    (animateFrame 0 w).1 = w := by
  unfold animateFrame
  rw [if_neg (lt_irrefl (0 : ℚ))]

/-- C7 counterexample: with the game-pause state active the effective
delta is zero, and the animation frame then does not invoke
`World.update` at all (`animate` guards the call with `delta > 0`),
contradicting the claim that every frame still invokes it with a zero
delta. -/
theorem paused_frame_does_not_invoke_update :
    (animateFrame (effectiveDelta true (1 / 60)) wSpace).2 = false := by
  unfold animateFrame effectiveDelta
  rw [if_pos rfl, if_neg (lt_irrefl (0 : ℚ))]

/-- C7 (amended): while the game-pause state is active the effective
per-frame delta is zero and the animation frame skips `World.update`
entirely, leaving all world state unchanged; when not paused with a
positive raw delta, the frame invokes `World.update` with that delta. -/
theorem paused_frames_skip_world_update (raw : ℚ) (w : WorldState) :
    animateFrame (effectiveDelta true raw) w = (w, false) ∧
    (0 < raw → animateFrame (effectiveDelta false raw) w = (worldUpdate raw w, true)) := by
  constructor
  · unfold animateFrame effectiveDelta
    rw [if_pos rfl, if_neg (lt_irrefl (0 : ℚ))]
  · intro hraw
    unfold animateFrame effectiveDelta
    rw [if_neg Bool.false_ne_true, if_pos hraw]

/-- Witness for C7's amended statement at a concrete raw delta and world. -/
theorem paused_frames_skip_world_update_witness :
    animateFrame (effectiveDelta true 1) wSpace = (wSpace, false) ∧
    animateFrame (effectiveDelta false 1) wSpace = (worldUpdate 1 wSpace, true) := by
  have h := paused_frames_skip_world_update 1 wSpace
  exact ⟨h.1, h.2 (by norm_num)⟩

/-! ## Health pipeline: helper facts -/

/-- The attackId string of the spec's scenarios. -/
def atkA1 : String := "a1"

/-- Scenario C's entity: vulnerable, `current = 3`. -/
def hScenario3 : HealthEntity :=
  { current := 3, max := 10, pendingDamage := 0, recentlyHitBy := []
    invulnerableCooldown := 1 / 2, invulnerableRemaining := 0
    onDeathCount := 0, destroyScheduled := false }

/-- Scenario A's entity: vulnerable, `current = max = 10`. -/
def hScenarioA : HealthEntity :=
  { current := 10, max := 10, pendingDamage := 0, recentlyHitBy := []
    invulnerableCooldown := 1 / 2, invulnerableRemaining := 0
    onDeathCount := 0, destroyScheduled := false }

/-- Scenario A's entity after the hit was recorded. -/
def hScenarioARecorded : HealthEntity :=
  { hScenarioA with recentlyHitBy := [atkA1], pendingDamage := 4 }

/-- Scenario A's entity inside its invulnerability window. -/
def hScenarioAInvuln : HealthEntity :=
  { hScenarioA with invulnerableRemaining := 1 / 2 }

theorem runH_nil (e : HealthEntity) : runH [] e = e := rfl

theorem stepH_hit_def (a : String) (d : ℚ) (e : HealthEntity) :
    stepH (HEvent.hit a d) e = applyHit a d e := rfl

theorem stepH_resolve_def (e : HealthEntity) :
    stepH HEvent.resolve e = resolveHealth e := rfl

theorem stepH_tick_def (dt : ℚ) (e : HealthEntity) :
    stepH (HEvent.tick dt) e = tickInvuln dt e := rfl

theorem runH_cons (ev : HEvent) (evs : List HEvent) (e : HealthEntity) :
    runH (ev :: evs) e = runH evs (stepH ev e) := rfl

theorem resolveHealth_current (e : HealthEntity) :
    (resolveHealth e).current = clampCurrent e := rfl

theorem resolveHealth_max (e : HealthEntity) : (resolveHealth e).max = e.max := rfl

theorem resolveHealth_pendingDamage (e : HealthEntity) :
    (resolveHealth e).pendingDamage = 0 := rfl

theorem resolveHealth_recentlyHitBy (e : HealthEntity) :
    (resolveHealth e).recentlyHitBy = e.recentlyHitBy := rfl

theorem resolveHealth_onDeathCount (e : HealthEntity) :
    (resolveHealth e).onDeathCount =
      if decide (0 < e.current) && decide (clampCurrent e ≤ 0)
      then e.onDeathCount + 1 else e.onDeathCount := rfl

theorem resolveHealth_destroyScheduled (e : HealthEntity) :
    (resolveHealth e).destroyScheduled =
      (e.destroyScheduled || (decide (0 < e.current) && decide (clampCurrent e ≤ 0))) := rfl

theorem resolveHealth_invulnerableRemaining (e : HealthEntity) :
    (resolveHealth e).invulnerableRemaining =
      if decide (0 < e.pendingDamage) && decide (0 < clampCurrent e)
      then e.invulnerableCooldown else e.invulnerableRemaining := rfl

theorem clampCurrent_nonneg (e : HealthEntity) (hmax : 0 ≤ e.max) :
    0 ≤ clampCurrent e := by
  simp only [clampCurrent]
  split
  · exact le_refl 0
  split
  · exact hmax
  · next h1 _ => exact not_lt.mp h1

theorem clampCurrent_le_max (e : HealthEntity) (hmax : 0 ≤ e.max) :
    clampCurrent e ≤ e.max := by
  simp only [clampCurrent]
  split
  · exact hmax
  split
  · exact le_refl e.max
  · next _ h2 => exact not_lt.mp h2

theorem applyHit_current (a : String) (d : ℚ) (e : HealthEntity) :
    (applyHit a d e).current = e.current := by
  unfold applyHit
  split
  · rfl
  split
  · rfl
  split
  · rfl
  · rfl

theorem applyHit_fields (a : String) (d : ℚ) (e : HealthEntity) :
    (applyHit a d e).current = e.current ∧
    (applyHit a d e).max = e.max ∧
    (applyHit a d e).invulnerableRemaining = e.invulnerableRemaining ∧
    (applyHit a d e).onDeathCount = e.onDeathCount ∧
    (applyHit a d e).destroyScheduled = e.destroyScheduled := by
  unfold applyHit
  split
  · exact ⟨rfl, rfl, rfl, rfl, rfl⟩
  split
  · exact ⟨rfl, rfl, rfl, rfl, rfl⟩
  split
  · exact ⟨rfl, rfl, rfl, rfl, rfl⟩
  · exact ⟨rfl, rfl, rfl, rfl, rfl⟩

theorem stepH_preserves_clamp (ev : HEvent) (e : HealthEntity)
    (h : 0 ≤ e.current ∧ e.current ≤ e.max) :
    0 ≤ (stepH ev e).current ∧ (stepH ev e).current ≤ (stepH ev e).max := by
  have hmax : (0 : ℚ) ≤ e.max := le_trans h.1 h.2
  cases ev with
  | hit a d =>
    obtain ⟨hc, hm, -, -, -⟩ := applyHit_fields a d e
    rw [stepH]
    rw [hc]
    have hm2 : (applyHit a d e).max = e.max := hm
    rw [hm2]
    exact h
  | resolve =>
    rw [stepH, resolveHealth_current, resolveHealth_max]
    exact ⟨clampCurrent_nonneg e hmax, clampCurrent_le_max e hmax⟩
  | tick dt => exact h

/-- C3: for every entity holding a Health component, along any sequence of
combat-pipeline events (attack hits, health resolutions, invulnerability
ticks) starting from a state satisfying `0 ≤ current ≤ max`, the clamped
invariant `0 ≤ Health.current ≤ Health.max` holds at every observable
point; in particular a 5-damage hit on an entity with `current = 3`
leaves `current` exactly 0, never negative. -/
theorem health_current_clamped (evs : List HEvent) (e : HealthEntity)
    (h : 0 ≤ e.current ∧ e.current ≤ e.max) :
    (0 ≤ (runH evs e).current ∧ (runH evs e).current ≤ (runH evs e).max) ∧
    (runH [HEvent.hit atkA1 5, HEvent.resolve] hScenario3).current = 0 := by
  refine ⟨?_, ?_⟩
  · induction evs generalizing e with
    | nil => exact h
    | cons ev evs ih =>
      rw [runH_cons]
      exact ih (stepH ev e) (stepH_preserves_clamp ev e h)
  · norm_num [runH, List.foldl, stepH, applyHit, resolveHealth, clampCurrent,
      hScenario3, atkA1]

/-- Witness for C3: scenario C's entity (`current = 3`, 5-damage hit then
resolution) satisfies the hypotheses, keeps the invariant, and lands on
`current = 0` exactly. -/
theorem health_current_clamped_witness :
    (0 ≤ (runH [HEvent.hit atkA1 5, HEvent.resolve] hScenario3).current ∧
      (runH [HEvent.hit atkA1 5, HEvent.resolve] hScenario3).current
        ≤ (runH [HEvent.hit atkA1 5, HEvent.resolve] hScenario3).max) ∧
    (runH [HEvent.hit atkA1 5, HEvent.resolve] hScenario3).current = 0 :=
  health_current_clamped [HEvent.hit atkA1 5, HEvent.resolve] hScenario3
    (by norm_num [hScenario3])

theorem countApplies_hit (a b : String) (d : ℚ) (evs : List HEvent)
    (e : HealthEntity) :
    countApplies a (HEvent.hit b d :: evs) e =
      (if b = a ∧ hitApplies b e = true then 1 else 0) +
        countApplies a evs (stepH (HEvent.hit b d) e) := rfl

theorem countApplies_resolve (a : String) (evs : List HEvent) (e : HealthEntity) :
    countApplies a (HEvent.resolve :: evs) e =
      countApplies a evs (stepH HEvent.resolve e) := rfl

theorem countApplies_tick (a : String) (dt : ℚ) (evs : List HEvent)
    (e : HealthEntity) :
    countApplies a (HEvent.tick dt :: evs) e =
      countApplies a evs (stepH (HEvent.tick dt) e) := rfl

theorem recentlyHitBy_persists (a : String) (ev : HEvent) (e : HealthEntity)
    (h : a ∈ e.recentlyHitBy) : a ∈ (stepH ev e).recentlyHitBy := by
  cases ev with
  | hit b d =>
    rw [stepH]
    unfold applyHit
    split
    · exact h
    split
    · exact h
    split
    · exact h
    · exact List.mem_cons_of_mem b h
  | resolve => exact h
  | tick dt => exact h

theorem hitApplies_false_of_mem (a : String) (e : HealthEntity)
    (h : a ∈ e.recentlyHitBy) : hitApplies a e = false := by
  simp [hitApplies, h]

theorem applyHit_mem_self (a : String) (d : ℚ) (e : HealthEntity)
    (happ : hitApplies a e = true) : a ∈ (applyHit a d e).recentlyHitBy := by
  simp only [hitApplies, Bool.and_eq_true, Bool.not_eq_eq_eq_not, Bool.not_true,
    decide_eq_false_iff_not] at happ
  unfold applyHit
  rw [if_neg happ.1.1, if_neg happ.1.2, if_neg happ.2]
  exact List.mem_cons_self a e.recentlyHitBy

theorem applyHit_not_mem (a b : String) (d : ℚ) (e : HealthEntity)
    (hmem : a ∉ e.recentlyHitBy) (hcond : ¬(b = a ∧ hitApplies b e = true)) :
    a ∉ (applyHit b d e).recentlyHitBy := by
  unfold applyHit
  split
  · exact hmem
  split
  · exact hmem
  split
  · exact hmem
  · next h1 h2 h3 =>
    intro hin
    rcases List.mem_cons.mp hin with hba | hrest
    · refine hcond ⟨hba.symm, ?_⟩
      subst hba
      simp [hitApplies, h1, h2, h3]
    · exact hmem hrest

theorem countApplies_zero_of_mem (a : String) (evs : List HEvent)
    (e : HealthEntity) (h : a ∈ e.recentlyHitBy) : countApplies a evs e = 0 := by
  induction evs generalizing e with
  | nil => rfl
  | cons ev evs ih =>
    cases ev with
    | hit b d =>
      rw [countApplies_hit, if_neg, ih _ (recentlyHitBy_persists a _ e h)]
      rintro ⟨rfl, happ⟩
      rw [hitApplies_false_of_mem b e h] at happ
      exact Bool.false_ne_true happ
    | resolve => rw [countApplies_resolve]; exact ih _ (recentlyHitBy_persists a _ e h)
    | tick dt => rw [countApplies_tick]; exact ih _ (recentlyHitBy_persists a _ e h)

/-- C4: over any sequence of combat-pipeline events, damage from a given
attackId is applied to a given entity at most once, no matter how many hit
events that attackId produces while its hitbox overlaps the entity; and
once the attackId is recorded in the entity's `recentlyHitBy` set, no
further damage from it is applied at all. -/
theorem attack_id_applies_at_most_once (a : String) (evs : List HEvent)
    (e : HealthEntity) :
    (a ∉ e.recentlyHitBy → countApplies a evs e ≤ 1) ∧
    (a ∈ e.recentlyHitBy → countApplies a evs e = 0) := by
  refine ⟨?_, countApplies_zero_of_mem a evs e⟩
  induction evs generalizing e with
  | nil => intro _; exact Nat.zero_le 1
  | cons ev evs ih =>
    intro hmem
    cases ev with
    | hit b d =>
      rw [countApplies_hit]
      by_cases hcond : b = a ∧ hitApplies b e = true
      · rw [if_pos hcond]
        obtain ⟨rfl, happ⟩ := hcond
        have hzero : countApplies b evs (stepH (HEvent.hit b d) e) = 0 :=
          countApplies_zero_of_mem b evs _ (applyHit_mem_self b d e happ)
        rw [hzero]
      · rw [if_neg hcond, Nat.zero_add]
        exact ih _ (applyHit_not_mem a b d e hmem hcond)
    | resolve =>
      rw [countApplies_resolve]
      exact ih _ (fun hin => hmem hin)
    | tick dt =>
      rw [countApplies_tick]
      exact ih _ (fun hin => hmem hin)

/-- Witness for C4: scenario A's entity is hit twice by attackId `a1` in
the same active window — damage is applied exactly once (count ≤ 1), and
from the recorded state the count is 0. -/
theorem attack_id_applies_at_most_once_witness :
    countApplies atkA1 [HEvent.hit atkA1 4, HEvent.hit atkA1 4, HEvent.resolve]
      hScenarioA ≤ 1 ∧
    countApplies atkA1 [HEvent.hit atkA1 4, HEvent.resolve] hScenarioARecorded = 0 :=
  ⟨(attack_id_applies_at_most_once atkA1
      [HEvent.hit atkA1 4, HEvent.hit atkA1 4, HEvent.resolve] hScenarioA).1
      (by simp [hScenarioA]),
   (attack_id_applies_at_most_once atkA1
      [HEvent.hit atkA1 4, HEvent.resolve] hScenarioARecorded).2
      (by simp [hScenarioARecorded])⟩

/-- C5: while `invulnerableRemaining > 0`, an attack-hit event is a
complete no-op on the Health component (in particular it never changes
`Health.current`); and whenever damage was applied at health-resolution
time and the entity survived, `invulnerableRemaining` is set to
`invulnerableCooldown` — the Vulnerable-to-Invulnerable transition
happens exactly on a successful damage application. -/
theorem invulnerability_window :
    (∀ (a : String) (d : ℚ) (e : HealthEntity),
      0 < e.invulnerableRemaining → stepH (HEvent.hit a d) e = e) ∧
    (∀ e : HealthEntity,
      0 < e.pendingDamage → 0 < (resolveHealth e).current →
      (resolveHealth e).invulnerableRemaining = e.invulnerableCooldown) := by
  constructor
  · intro a d e hinv
    rw [stepH_hit_def]
    simp [applyHit, hinv]
  · intro e hpd hsurv
    rw [resolveHealth_current] at hsurv
    rw [resolveHealth_invulnerableRemaining, if_pos]
    simp only [Bool.and_eq_true, decide_eq_true_eq]
    exact ⟨hpd, hsurv⟩

/-- Witness for C5: a hit on scenario A's entity inside its
invulnerability window changes nothing; resolving scenario A's entity
with 4 pending damage (it survives at `current = 6`) arms the
invulnerability window with the configured cooldown. -/
theorem invulnerability_window_witness :
    stepH (HEvent.hit atkA1 4) hScenarioAInvuln = hScenarioAInvuln ∧
    (resolveHealth hScenarioARecorded).invulnerableRemaining
      = hScenarioARecorded.invulnerableCooldown :=
  ⟨invulnerability_window.1 atkA1 4 hScenarioAInvuln
      (by norm_num [hScenarioAInvuln, hScenarioA]),
   invulnerability_window.2 hScenarioARecorded
      (by norm_num [hScenarioARecorded, hScenarioA])
      (by norm_num [resolveHealth_current, clampCurrent, hScenarioARecorded, hScenarioA])⟩

/-- The per-entity state-machine invariant behind C6: the entity is either
still alive with the `onDeath` callback never fired and no destruction
scheduled, or dead at exactly 0 health with the callback fired exactly
once, no pending damage, and destruction scheduled. -/
def deathInv (e : HealthEntity) : Prop :=
  0 ≤ e.max ∧
  ((0 < e.current ∧ e.onDeathCount = 0 ∧ e.destroyScheduled = false) ∨
    (e.current = 0 ∧ e.onDeathCount = 1 ∧ e.pendingDamage = 0 ∧
      e.destroyScheduled = true))

theorem stepH_preserves_deathInv (ev : HEvent) (e : HealthEntity)
    (h : deathInv e) : deathInv (stepH ev e) := by
  obtain ⟨hmax, hcase⟩ := h
  cases ev with
  | hit a d =>
    rw [stepH]
    unfold applyHit
    split
    · exact ⟨hmax, hcase⟩
    split
    · exact ⟨hmax, hcase⟩
    split
    · exact ⟨hmax, hcase⟩
    · next hlive _ _ =>
      rcases hcase with ⟨hc, hd, hs⟩ | ⟨hc, -, -, -⟩
      · exact ⟨hmax, Or.inl ⟨hc, hd, hs⟩⟩
      · exact absurd (le_of_eq hc) hlive
  | resolve =>
    rw [stepH_resolve_def]
    refine ⟨hmax, ?_⟩
    have hnn : 0 ≤ clampCurrent e := clampCurrent_nonneg e hmax
    rcases hcase with ⟨hc, hd, hs⟩ | ⟨hc, hd, hp, hs⟩
    · by_cases hsurv : 0 < clampCurrent e
      · refine Or.inl ⟨?_, ?_, ?_⟩
        · rw [resolveHealth_current]; exact hsurv
        · rw [resolveHealth_onDeathCount, if_neg, hd]
          simp only [Bool.and_eq_true, decide_eq_true_eq, not_and]
          intro _ hle
          exact absurd hle (not_le.mpr hsurv)
        · rw [resolveHealth_destroyScheduled, hs]
          simp only [Bool.false_or, Bool.and_eq_true, decide_eq_true_eq]
          rw [Bool.and_eq_false_iff]
          right
          simpa using not_le.mpr hsurv
      · have hzero : clampCurrent e = 0 := le_antisymm (not_lt.mp hsurv) hnn
        have hfd : (decide (0 < e.current) && decide (clampCurrent e ≤ 0)) = true := by
          simp [hc, hzero]
        refine Or.inr ⟨?_, ?_, resolveHealth_pendingDamage e, ?_⟩
        · rw [resolveHealth_current]; exact hzero
        · rw [resolveHealth_onDeathCount, if_pos hfd, hd]
        · rw [resolveHealth_destroyScheduled, hfd, Bool.or_true]
    · have hdz : clampCurrent e = e.current := by
        unfold clampCurrent
        rw [hp, sub_zero, if_neg, if_neg]
        · rw [hc]; exact not_lt.mpr hmax
        · rw [hc]; exact lt_irrefl 0
      have hfd : (decide (0 < e.current) && decide (clampCurrent e ≤ 0)) = false := by
        simp [hc]
      refine Or.inr ⟨?_, ?_, resolveHealth_pendingDamage e, ?_⟩
      · rw [resolveHealth_current, hdz, hc]
      · rw [resolveHealth_onDeathCount, hfd, if_neg Bool.false_ne_true, hd]
      · rw [resolveHealth_destroyScheduled, hfd, Bool.or_false, hs]
  | tick dt => exact ⟨hmax, hcase⟩

theorem runH_preserves_deathInv (evs : List HEvent) (e : HealthEntity)
    (h : deathInv e) : deathInv (runH evs e) := by
  induction evs generalizing e with
  | nil => exact h
  | cons ev evs ih =>
    rw [runH_cons]
    exact ih (stepH ev e) (stepH_preserves_deathInv ev e h)

/-- C6: starting from a live entity whose `onDeath` callback has not yet
fired, along any sequence of combat-pipeline events the callback fires at
most once; it has fired exactly once precisely when the entity's health
has reached 0 (Dead is terminal), in which case the entity has been
scheduled for destruction; and an entity scheduled for destruction is
absent from the Entity Store after the end-of-frame flush. -/
theorem on_death_fires_exactly_once (evs : List HEvent) (e : HealthEntity)
    (hmax : 0 ≤ e.max) (hlive : 0 < e.current)
    (hcount : e.onDeathCount = 0) (hsched : e.destroyScheduled = false) :
    (runH evs e).onDeathCount ≤ 1 ∧
    ((runH evs e).onDeathCount = 1 ↔ (runH evs e).current ≤ 0) ∧
    ((runH evs e).current ≤ 0 → (runH evs e).destroyScheduled = true) ∧
    (∀ (alive pending : List Nat) (i : Nat),
      i ∈ pending → i ∉ flushStore alive pending) := by
  have hinv : deathInv (runH evs e) :=
    runH_preserves_deathInv evs e ⟨hmax, Or.inl ⟨hlive, hcount, hsched⟩⟩
  obtain ⟨-, hcase⟩ := hinv
  refine ⟨?_, ?_, ?_, ?_⟩
  · rcases hcase with ⟨-, hd, -⟩ | ⟨-, hd, -, -⟩
    · rw [hd]; exact Nat.zero_le 1
    · rw [hd]
  · rcases hcase with ⟨hc, hd, -⟩ | ⟨hc, hd, -, -⟩
    · rw [hd]
      constructor
      · intro h01; exact absurd h01 (by decide)
      · intro hle; exact absurd hle (not_le.mpr hc)
    · rw [hd, hc]
      exact ⟨fun _ => le_refl 0, fun _ => rfl⟩
  · rcases hcase with ⟨hc, -, -⟩ | ⟨-, -, -, hs⟩
    · intro hle; exact absurd hle (not_le.mpr hc)
    · intro _; exact hs
  · intro alive pending i hp hin
    rw [flushStore, List.mem_filter] at hin
    have := hin.2
    simp only [Bool.not_eq_eq_eq_not, Bool.not_true, decide_eq_false_iff_not] at this
    exact this hp

/-- Witness for C6: scenario C (`current = 3`, one 5-damage hit, then
resolution) fires `onDeath` exactly once, health lands at 0, destruction
is scheduled, and a scheduled entity id is gone after the flush. -/
theorem on_death_fires_exactly_once_witness :
    ((runH [HEvent.hit atkA1 5, HEvent.resolve] hScenario3).onDeathCount ≤ 1 ∧
      ((runH [HEvent.hit atkA1 5, HEvent.resolve] hScenario3).onDeathCount = 1 ↔
        (runH [HEvent.hit atkA1 5, HEvent.resolve] hScenario3).current ≤ 0) ∧
      ((runH [HEvent.hit atkA1 5, HEvent.resolve] hScenario3).current ≤ 0 →
        (runH [HEvent.hit atkA1 5, HEvent.resolve] hScenario3).destroyScheduled = true) ∧
      (∀ (alive pending : List Nat) (i : Nat),
        i ∈ pending → i ∉ flushStore alive pending)) ∧
    (runH [HEvent.hit atkA1 5, HEvent.resolve] hScenario3).onDeathCount = 1 ∧
    (2 : Nat) ∉ flushStore [1, 2, 3] [2] :=
  ⟨on_death_fires_exactly_once [HEvent.hit atkA1 5, HEvent.resolve] hScenario3
      (by norm_num [hScenario3]) (by norm_num [hScenario3])
      (by norm_num [hScenario3]) (by norm_num [hScenario3]),
   by norm_num [runH, List.foldl, stepH, applyHit, resolveHealth, clampCurrent,
      hScenario3, atkA1],
   by decide⟩

end KitchenNightmares
